import Mathlib

/-!
Verification of the request-execution core of a ksql HTTP client
(`ksql/api.py`): statement validation, response interpretation, buffered
and streaming calls, and the retry decorator, embedded shallowly in Lean.

JSON values flowing through the interpreter are modelled by `PyVal`
(string and object values, the shapes the interpreter accesses); Python
exceptions by `PyExc`; fallible code returns `Except PyExc`.
-/

/-- JSON-like Python values as seen by the response interpreter:
strings and dictionaries (objects) with string keys. -/
inductive PyVal where
  | str : String → PyVal
  | dict : List (String × PyVal) → PyVal

/-- Python exception kinds raised by the embedded code. `createError`
carries the object passed to `CreateError(...)`; `invalidQueryError`
carries the offending statement text; `valueError` carries the formatted
message; `keyError` models a failed dictionary subscript; `other` models
exception classes outside this module (for example `RuntimeError`). -/
inductive PyExc where
  | timeout
  | createError : PyVal → PyExc
  | invalidQueryError : String → PyExc
  | valueError : String → PyExc
  | keyError
  | indexError
  | other : String → PyExc

/-- The single-quote character used by Python `str()` on strings. -/
def squote : Char := Char.ofNat 39

/-- Opening brace character of Python dict display. -/
def lbrace : Char := Char.ofNat 123

/-- Closing brace character of Python dict display. -/
def rbrace : Char := Char.ofNat 125

mutual

/-- Characters of Python `str(v)` for a `PyVal`: strings print quoted,
dicts print as `\x7b'k': v, ...\x7d`. -/
def pyChars : PyVal → List Char
  | .str s => squote :: (s.data ++ [squote])
  | .dict fields => lbrace :: (pyCharsFields fields ++ [rbrace])

/-- Characters of the comma-separated field list inside a dict display. -/
def pyCharsFields : List (String × PyVal) → List Char
  | [] => []
  | (k, v) :: rest =>
    (squote :: (k.data ++ [squote])) ++ (':' :: ' ' :: pyChars v)
      ++ (if rest.isEmpty then [] else [',', ' ']) ++ pyCharsFields rest

end

/-- Python's `pat in str(v)` substring test, as used by the interpreter's
branch condition. -/
def pyContains (pat : String) (v : PyVal) : Bool :=
  decide (pat.data <:+: pyChars v)

/-- Python dictionary subscript `v[k]`: `KeyError` when the key is absent,
`TypeError` when `v` is not a dict. -/
def dictGet (v : PyVal) (k : String) : Except PyExc PyVal :=
  match v with
  | .dict fields =>
    match fields.find? (fun p => p.1 == k) with
    | some p => .ok p.2
    | none => .error .keyError
  | .str _ => .error (.other "TypeError")

/-- `BaseAPI._validate_sql_string`: raise `InvalidQueryError` on the empty
string, append `;` when the last character is not `;`, otherwise return
the string unchanged. The last character `sql_string[-1]` is modelled by
`String.data.getLast?`. -/
def _validate_sql_string (s : String) : Except PyExc String :=
  match s.data.getLast? with
  | some c => if c ≠ ';' then .ok (s ++ ";") else .ok s
  | none => .error (.invalidQueryError s)

/-- Spec-side predicate: `t` ends with exactly one `;` — its last
character is `;` and the character before it (if any) is not. -/
def singleTrailingSemi (t : String) : Prop :=
  t.data.getLast? = some ';' ∧ t.data.dropLast.getLast? ≠ some ';'

instance (t : String) : Decidable (singleTrailingSemi t) := by
  unfold singleTrailingSemi; infer_instance

/-- `BaseAPI._parse_ksql_res`: branch on whether the text `commandStatus`
occurs in `str(r[0])`; on the command-status branch read
`r[0]['currentStatus']['commandStatus']['status']`, return `True` on
`'SUCCESS'` and otherwise raise `CreateError` with that section's
`message`; on the other branch raise `CreateError` with
`'Message: ' + r[0]['error']['errorMessage']['message']` (string
concatenation raises `TypeError` on a non-string message). -/
def parse_ksql_res (r : List PyVal) : Except PyExc Bool :=
  match r with
  | [] => .error .indexError
  | r0 :: _ =>
    if pyContains "commandStatus" r0 then
      match dictGet r0 "currentStatus" with
      | .error e => .error e
      | .ok cur =>
        match dictGet cur "commandStatus" with
        | .error e => .error e
        | .ok cs =>
          match dictGet cs "status" with
          | .error e => .error e
          | .ok st =>
            match st with
            | .str status =>
              if status = "SUCCESS" then .ok true
              else
                match dictGet cs "message" with
                | .error e => .error e
                | .ok m => .error (.createError m)
            | .dict _ =>
              match dictGet cs "message" with
              | .error e => .error e
              | .ok m => .error (.createError m)
    else
      match dictGet r0 "error" with
      | .error e => .error e
      | .ok v1 =>
        match dictGet v1 "errorMessage" with
        | .error e => .error e
        | .ok v2 =>
          match dictGet v2 "message" with
          | .error e => .error e
          | .ok m =>
            match m with
            | .str msg => .error (.createError (.str ("Message: " ++ msg)))
            | .dict _ => .error (.other "TypeError")

/-- An HTTP response as seen by `BaseAPI.ksql`: transport status code, raw
body text (`r.content`), and the body decoded as one JSON document
(`r.json()`, a list of result entries). -/
structure HttpResponse where
  status_code : Nat
  content : String
  body_json : List PyVal

/-- `BaseAPI.ksql`: on status 200 return the JSON-decoded body, otherwise
raise `ValueError('Status Code: \x7b\x7d.\nMessage: \x7b\x7d'.format(...))`. -/
def ksql_model (r : HttpResponse) : Except PyExc (List PyVal) :=
  if r.status_code = 200 then .ok r.body_json
  else .error (.valueError
    ("Status Code: " ++ toString r.status_code ++ ".\nMessage: " ++ r.content))

/-- `BaseAPI.query`: iterate over body chunks, skip any chunk equal to a
bare newline, decode every other chunk with the given encoding and parse
it as one JSON document, yielding the rows in order. `decode` models
`bytes.decode(encoding)` and `loads` models `json.loads`. -/
def query_model (loads : String → PyVal) (decode : String → String) :
    List String → List PyVal
  | [] => []
  | chunk :: rest =>
    if chunk ≠ "\n" then loads (decode chunk) :: query_model loads decode rest
    else query_model loads decode rest

/-- The loop body of `BaseAPI.retry`'s `inner_wrapper`: `counter` is the
number of invocations made so far (and the index of the next attempt),
`remaining` the attempts left out of `max_retries`, `finalExcep` the
`final_excep` variable. The operation `op` maps the attempt index to its
outcome; `exc e = true` means `e` is in the decorator's `exceptions`
tuple. Returns the wrapper's outcome (`.ok none` models falling off the
loop returning `None`) paired with the total number of invocations. -/
def retryGo {A : Type} (op : Nat → Except PyExc A) (exc : PyExc → Bool) :
    Nat → Nat → Option PyExc → Except PyExc (Option A) × Nat
  | counter, 0, finalExcep =>
    match finalExcep with
    | some e => (.error e, counter)
    | none => (.ok none, counter)
  | counter, remaining + 1, _ =>
    match op counter with
    | .ok v => (.ok (some v), counter + 1)
    | .error e =>
      if exc e then retryGo op exc (counter + 1) remaining (some e)
      else (.error e, counter + 1)

/-- `BaseAPI.retry(exceptions, delay, max_retries)` applied to an
operation: run `retryGo` from attempt 0 with `final_excep = None`.
The inter-attempt `time.sleep(delay)` has no observable effect here. -/
def retryModel {A : Type} (op : Nat → Except PyExc A) (exc : PyExc → Bool)
    (maxRetries : Nat) : Except PyExc (Option A) × Nat :=
  retryGo op exc 0 maxRetries none

/-- The `exceptions=(Timeout, CreateError)` tuple of the decorator applied
to `SimplifiedAPI._create_as`. -/
def createAsRetryExceptions : PyExc → Bool
  | .timeout => true
  | .createError _ => true
  | _ => false

/-- The decorator's `delay` default, in effect at the `_create_as` site
(no `delay` argument is passed there). -/
def createAsRetryDelay : Nat := 1

/-- The decorator's `max_retries` default, in effect at the `_create_as`
site (no `max_retries` argument is passed there). -/
def createAsRetryMaxRetries : Nat := 5

/-- The configuration stored by `BaseAPI.__init__`. -/
structure BaseAPIConfig where
  url : String
  max_retries : Nat
  delay : Nat
  timeout : Nat

/-- `BaseAPI.__init__(url, **kwargs)`: store the url and
`kwargs.get("max_retries", 3)`, `kwargs.get("delay", 0)`,
`kwargs.get("timeout", 5)`. -/
def BaseAPI.init (url : String)
    (kw_max_retries kw_delay kw_timeout : Option Nat) : BaseAPIConfig :=
  { url := url
    max_retries := kw_max_retries.getD 3
    delay := kw_delay.getD 0
    timeout := kw_timeout.getD 5 }

/-- `SimplifiedAPI._create` after statement building: one unretried call
of `self.ksql` followed by `_parse_ksql_res`. `ksqlOp i` is the outcome
of the `i`-th transport call; `_create` performs exactly one, at index 0,
so the invocation count is 1. -/
def create_model (ksqlOp : Nat → Except PyExc (List PyVal)) :
    Except PyExc Bool × Nat :=
  ((ksqlOp 0).bind parse_ksql_res, 1)

/-- `SimplifiedAPI._create_as` after statement building: the same
`ksql`-then-parse pipeline, wrapped by the retry decorator with
`exceptions=(Timeout, CreateError)` and the decorator's default
`delay`/`max_retries`. -/
def create_as_model (ksqlOp : Nat → Except PyExc (List PyVal)) :
    Except PyExc (Option Bool) × Nat :=
  retryModel (fun i => (ksqlOp i).bind parse_ksql_res)
    createAsRetryExceptions createAsRetryMaxRetries

/-- A first response entry with a successful command status. -/
def csEntryOk : PyVal :=
  .dict [("currentStatus", .dict [("commandStatus",
    .dict [("status", .str "SUCCESS"), ("message", .str "Stream created")])])]

/-- A first response entry with a failed command status. -/
def csEntryBad : PyVal :=
  .dict [("currentStatus", .dict [("commandStatus",
    .dict [("status", .str "ERROR"), ("message", .str "boom")])])]

/-- An adversarial error entry: it has no command-status section, but its
nested message text mentions `commandStatus`. -/
def errEntryAdv : PyVal :=
  .dict [("error", .dict [("errorMessage",
    .dict [("message", .str "unknown commandStatus")])])]

/-- A plain error entry whose text never mentions `commandStatus`. -/
def errEntryPlain : PyVal :=
  .dict [("error", .dict [("errorMessage",
    .dict [("message", .str "stream not found")])])]

/-- An operation failing with `Timeout` on its first two attempts and
succeeding from the third on. -/
def opFlaky : Nat → Except PyExc Bool := fun i =>
  if i < 2 then .error .timeout else .ok true

/-- An operation raising retryable `Timeout` on attempt 0 and a
non-retryable `RuntimeError` on every later attempt. -/
def opMixed : Nat → Except PyExc Bool := fun i =>
  if i = 0 then .error .timeout else .error (.other "RuntimeError")

/-- An operation raising `Timeout` on every attempt. -/
def opTimeoutAlways : Nat → Except PyExc Bool := fun _ => .error .timeout

/-- An operation raising a non-retryable `RuntimeError` on every attempt. -/
def opFatal : Nat → Except PyExc Bool := fun _ => .error (.other "RuntimeError")

/-- A list stays an infix after extending the ambient list on the left. -/
theorem infix_ext_left {α : Type} {l m : List α} (n : List α)
    (h : l <:+: m) : l <:+: n ++ m := by
  obtain ⟨s, t, e⟩ := h
  exact ⟨n ++ s, t, by rw [← e]; simp [List.append_assoc]⟩

/-- A list stays an infix after extending the ambient list on the right. -/
theorem infix_ext_right {α : Type} {l m : List α} (n : List α)
    (h : l <:+: m) : l <:+: m ++ n := by
  obtain ⟨s, t, e⟩ := h
  exact ⟨s, t ++ n, by rw [← e]; simp [List.append_assoc]⟩

/-- A list is an infix of itself surrounded by arbitrary material. -/
theorem infix_self_mid {α : Type} (pre l post : List α) :
    l <:+: pre ++ (l ++ post) :=
  ⟨pre, post, by simp [List.append_assoc]⟩

/-- A list is an infix of itself preceded by arbitrary material. -/
theorem infix_of_pre {α : Type} (pre l : List α) : l <:+: pre ++ l :=
  ⟨pre, [], by simp⟩

/-- A field present in a dict contributes its key's characters and its
value's printed characters to the printed field list. -/
theorem mem_fields_found {k : String} {v : PyVal} :
    ∀ {fields : List (String × PyVal)}, (k, v) ∈ fields →
      k.data <:+: pyCharsFields fields ∧ pyChars v <:+: pyCharsFields fields := by
  intro fields h
  induction fields with
  | nil => cases h
  | cons hd rest ih =>
    obtain ⟨k₀, v₀⟩ := hd
    rcases List.mem_cons.mp h with heq | hmem
    · obtain ⟨hk, hv⟩ := Prod.mk.injEq .. ▸ heq
      subst hk; subst hv
      simp only [pyCharsFields]
      constructor
      · exact infix_ext_right _ (infix_ext_right _ (infix_ext_right _
          (infix_self_mid [squote] k.data [squote])))
      · exact infix_ext_right _ (infix_ext_right _ (infix_ext_left _
          (infix_of_pre [':', ' '] (pyChars v))))
    · obtain ⟨ih1, ih2⟩ := ih hmem
      simp only [pyCharsFields]
      exact ⟨infix_ext_left _ ih1, infix_ext_left _ ih2⟩

/-- Lift an infix of the printed field list to the printed dict. -/
theorem fields_infix_dict {l : List Char} {fields : List (String × PyVal)}
    (h : l <:+: pyCharsFields fields) : l <:+: pyChars (.dict fields) := by
  simp only [pyChars]
  exact infix_ext_left [lbrace] (infix_ext_right [rbrace] h)

/-- A successful subscript `d[k] = v` puts both the key `k` and the
printed form of `v` inside `str(d)`. -/
theorem dictGet_ok_found {d v : PyVal} {k : String}
    (h : dictGet d k = .ok v) :
    k.data <:+: pyChars d ∧ pyChars v <:+: pyChars d := by
  cases d with
  | str s => simp [dictGet] at h
  | dict fields =>
    simp only [dictGet] at h
    cases hf : fields.find? (fun p => p.1 == k) with
    | none => rw [hf] at h; cases h
    | some p =>
      rw [hf] at h
      injection h with hv
      have hp := List.find?_some hf
      have hk : p.1 = k := by simpa using hp
      have hmem : p ∈ fields := List.mem_of_find?_eq_some hf
      have hmem2 : (k, v) ∈ fields := by rw [← hk, ← hv]; exact hmem
      obtain ⟨h1, h2⟩ := mem_fields_found hmem2
      exact ⟨fields_infix_dict h1, fields_infix_dict h2⟩

/-- A first entry that really carries a
`currentStatus → commandStatus` path passes the interpreter's textual
`commandStatus` test. -/
theorem contains_of_dict_path {r0 cur cs : PyVal}
    (hcur : dictGet r0 "currentStatus" = .ok cur)
    (hcs : dictGet cur "commandStatus" = .ok cs) :
    pyContains "commandStatus" r0 = true := by
  have h1 := (dictGet_ok_found hcs).1
  have h2 := (dictGet_ok_found hcur).2
  unfold pyContains
  exact decide_eq_true (h1.trans h2)

/-- One-step unfolding of `retryGo` when attempts remain. -/
theorem retryGo_succ_unfold {A : Type} (op : Nat → Except PyExc A)
    (exc : PyExc → Bool) (counter remaining : Nat) (f : Option PyExc) :
    retryGo op exc counter (remaining + 1) f =
      match op counter with
      | .ok v => (.ok (some v), counter + 1)
      | .error e =>
        if exc e then retryGo op exc (counter + 1) remaining (some e)
        else (.error e, counter + 1) := by
  rw [retryGo]

/-- Unrolling `retryGo`: when the first `k` attempts from `start` raise
retryable errors and attempt `start + k` succeeds within the remaining
budget, the wrapper returns the success value after `k + 1` further
invocations. -/
theorem retryGo_success {A : Type} (op : Nat → Except PyExc A)
    (exc : PyExc → Bool) (e : Nat → PyExc) (v : A) :
    ∀ (k start rem : Nat) (f : Option PyExc), k < rem →
      (∀ i, i < k →
        op (start + i) = .error (e (start + i)) ∧ exc (e (start + i)) = true) →
      op (start + k) = .ok v →
      retryGo op exc start rem f = (.ok (some v), start + k + 1) := by
  intro k
  induction k with
  | zero =>
    intro start rem f hrem _ hsucc
    obtain ⟨r, rfl⟩ : ∃ r, rem = r + 1 := ⟨rem - 1, by omega⟩
    simp only [Nat.add_zero] at hsucc
    simp only [retryGo, hsucc]
  | succ k ih =>
    intro start rem f hrem hfail hsucc
    obtain ⟨r, rfl⟩ : ∃ r, rem = r + 1 := ⟨rem - 1, by omega⟩
    obtain ⟨h0, h0r⟩ := hfail 0 (Nat.succ_pos k)
    simp only [Nat.add_zero] at h0 h0r
    simp only [retryGo, h0, h0r, if_true]
    have hfail' : ∀ i, i < k → op (start + 1 + i) = .error (e (start + 1 + i)) ∧
        exc (e (start + 1 + i)) = true := by
      intro i hi
      have h' := hfail (i + 1) (by omega)
      rwa [show start + (i + 1) = start + 1 + i by omega] at h'
    have hsucc' : op (start + 1 + k) = .ok v := by
      rwa [show start + (k + 1) = start + 1 + k by omega] at hsucc
    have h := ih (start + 1) r (some (e start)) (by omega) hfail' hsucc'
    rw [h, show start + 1 + k + 1 = start + (k + 1) + 1 by omega]

/-- Unrolling `retryGo`: when every one of the `r + 1` remaining attempts
raises a retryable error, the wrapper re-raises the error of the last
attempt after consuming the whole budget. -/
theorem retryGo_exhaust {A : Type} (op : Nat → Except PyExc A)
    (exc : PyExc → Bool) (e : Nat → PyExc) :
    ∀ (r start : Nat) (f : Option PyExc),
      (∀ i, i ≤ r →
        op (start + i) = .error (e (start + i)) ∧ exc (e (start + i)) = true) →
      retryGo op exc start (r + 1) f = (.error (e (start + r)), start + r + 1) := by
  intro r
  induction r with
  | zero =>
    intro start f hfail
    obtain ⟨h0, h0r⟩ := hfail 0 (Nat.le_refl 0)
    simp only [Nat.add_zero] at h0 h0r
    rw [retryGo_succ_unfold, h0]
    simp only [h0r, if_true, Nat.add_zero]
    simp [retryGo]
  | succ r ih =>
    intro start f hfail
    obtain ⟨h0, h0r⟩ := hfail 0 (Nat.zero_le _)
    simp only [Nat.add_zero] at h0 h0r
    rw [retryGo_succ_unfold, h0]
    simp only [h0r, if_true]
    have hfail' : ∀ i, i ≤ r → op (start + 1 + i) = .error (e (start + 1 + i)) ∧
        exc (e (start + 1 + i)) = true := by
      intro i hi
      have h' := hfail (i + 1) (by omega)
      rwa [show start + (i + 1) = start + 1 + i by omega] at h'
    have h := ih (start + 1) (some (e start)) hfail'
    rw [h, show start + 1 + r = start + (r + 1) by omega]

/-- Unrolling `retryGo`: a non-retryable error on attempt `start + k`,
after `k` retryable failures, propagates at once with no further
invocations. -/
theorem retryGo_fatal {A : Type} (op : Nat → Except PyExc A)
    (exc : PyExc → Bool) (e : Nat → PyExc) (e2 : PyExc) (he2 : exc e2 = false) :
    ∀ (k start rem : Nat) (f : Option PyExc), k < rem →
      (∀ i, i < k →
        op (start + i) = .error (e (start + i)) ∧ exc (e (start + i)) = true) →
      op (start + k) = .error e2 →
      retryGo op exc start rem f = (.error e2, start + k + 1) := by
  intro k
  induction k with
  | zero =>
    intro start rem f hrem _ herr
    obtain ⟨r, rfl⟩ : ∃ r, rem = r + 1 := ⟨rem - 1, by omega⟩
    simp only [Nat.add_zero] at herr
    simp only [retryGo, herr, he2, Bool.false_eq_true, if_false]
  | succ k ih =>
    intro start rem f hrem hfail herr
    obtain ⟨r, rfl⟩ : ∃ r, rem = r + 1 := ⟨rem - 1, by omega⟩
    obtain ⟨h0, h0r⟩ := hfail 0 (Nat.succ_pos k)
    simp only [Nat.add_zero] at h0 h0r
    simp only [retryGo, h0, h0r, if_true]
    have hfail' : ∀ i, i < k → op (start + 1 + i) = .error (e (start + 1 + i)) ∧
        exc (e (start + 1 + i)) = true := by
      intro i hi
      have h' := hfail (i + 1) (by omega)
      rwa [show start + (i + 1) = start + 1 + i by omega] at h'
    have herr' : op (start + 1 + k) = .error e2 := by
      rwa [show start + (k + 1) = start + 1 + k by omega] at herr
    have h := ih (start + 1) r (some (e start)) (by omega) hfail' herr'
    rw [h, show start + 1 + k + 1 = start + (k + 1) + 1 by omega]

/-- C1: for every input string `s` to `_validate_sql_string`: if `s` is
empty, validation fails with the invalid-statement error
(`InvalidQueryError` in the code); if `s` is non-empty and its last
character is not `;`, validation returns `s ++ ";"`; if `s` is non-empty
and already ends with `;`, validation returns `s` unchanged. -/
theorem validate_sql_string_claim (s : String) :
    (s = "" → _validate_sql_string s = .error (.invalidQueryError s)) ∧
    (∀ c, s.data.getLast? = some c → c ≠ ';' →
      _validate_sql_string s = .ok (s ++ ";")) ∧
    (s.data.getLast? = some ';' → _validate_sql_string s = .ok s) := by
  refine ⟨?_, ?_, ?_⟩
  · intro h; subst h; rfl
  · intro c hc hne
    unfold _validate_sql_string
    rw [hc]
    simp [hne]
  · intro hc
    unfold _validate_sql_string
    rw [hc]
    simp

/-- Witness for C1 at the empty string, at `"ab"` (no terminator) and at
`"x;"` (already terminated). -/
theorem validate_sql_string_claim_w :
    _validate_sql_string "" = .error (.invalidQueryError "") ∧
    _validate_sql_string "ab" = .ok "ab;" ∧
    _validate_sql_string "x;" = .ok "x;" :=
  ⟨(validate_sql_string_claim "").1 rfl,
   (validate_sql_string_claim "ab").2.1 'b' (by decide) (by decide),
   (validate_sql_string_claim "x;").2.2 (by decide)⟩

/-- C2 counterexample: the non-empty input `"a;;"` already ends with `;`,
so the validator returns it unchanged — and the output ends with TWO
`;` characters, not exactly one. -/
theorem validate_sql_single_semi_cex :
    _validate_sql_string "a;;" = .ok "a;;" ∧ ¬ singleTrailingSemi "a;;" :=
  ⟨rfl, by decide⟩

/-- Helper: the characters of `s ++ ";"`. -/
theorem data_append_semi (s : String) : (s ++ ";").data = s.data ++ [';'] := by
  rw [String.data_append]

/-- C2 (amended): for every non-empty input `s`, the validator's output
ends with `;`; and whenever `s` does not already end with `;`, the output
ends with exactly one trailing `;`. (The original claim fails for inputs
that already carry duplicated terminators, which are returned unchanged;
see the counterexample.) -/
theorem validate_sql_single_semi_claim (s : String) (c : Char)
    (h : s.data.getLast? = some c) :
    ∃ t, _validate_sql_string s = .ok t ∧ t.data.getLast? = some ';' ∧
      (c ≠ ';' → singleTrailingSemi t) := by
  by_cases hc : c = ';'
  · subst hc
    refine ⟨s, ?_, h, fun hne => absurd rfl hne⟩
    unfold _validate_sql_string
    rw [h]
    simp
  · refine ⟨s ++ ";", ?_, ?_, ?_⟩
    · unfold _validate_sql_string
      rw [h]
      simp [hc]
    · rw [data_append_semi]
      exact List.getLast?_concat _
    · intro _
      exact ⟨by rw [data_append_semi]; exact List.getLast?_concat _,
             by rw [data_append_semi, List.dropLast_concat, h]; simpa using hc⟩

/-- Witness for C2 (amended) at the input `"ab"`. -/
theorem validate_sql_single_semi_claim_w :
    ∃ t, _validate_sql_string "ab" = .ok t ∧ t.data.getLast? = some ';' ∧
      ('b' ≠ ';' → singleTrailingSemi t) :=
  validate_sql_single_semi_claim "ab" 'b' (by decide)

/-- C3: for a buffered response whose first entry carries a command-status
section (a `currentStatus → commandStatus` object with a string `status`
field), the interpreter returns `true` when the status is `SUCCESS`, and
for any other status fails with `CreateError` carrying that section's
`message` value verbatim. -/
theorem parse_commandStatus_claim (r0 : PyVal) (rest : List PyVal)
    (cur cs : PyVal) (status : String)
    (hcur : dictGet r0 "currentStatus" = .ok cur)
    (hcs : dictGet cur "commandStatus" = .ok cs)
    (hst : dictGet cs "status" = .ok (.str status)) :
    (status = "SUCCESS" → parse_ksql_res (r0 :: rest) = .ok true) ∧
    (status ≠ "SUCCESS" → ∀ m, dictGet cs "message" = .ok m →
      parse_ksql_res (r0 :: rest) = .error (.createError m)) := by
  have hb := contains_of_dict_path hcur hcs
  constructor
  · intro hs
    simp only [parse_ksql_res, hb, if_true, hcur, hcs, hst]
    simp [hs]
  · intro hs m hm
    simp only [parse_ksql_res, hb, if_true, hcur, hcs, hst, hm]
    simp [hs]

/-- Witness for C3 at a successful and at a failed command status. -/
theorem parse_commandStatus_claim_w :
    parse_ksql_res [csEntryOk] = .ok true ∧
    parse_ksql_res [csEntryBad] = .error (.createError (.str "boom")) :=
  ⟨(parse_commandStatus_claim csEntryOk [] _ _ "SUCCESS" rfl rfl rfl).1 rfl,
   (parse_commandStatus_claim csEntryBad [] _ _ "ERROR" rfl rfl rfl).2
     (by decide) (.str "boom") rfl⟩

/-- C4 counterexample: `errEntryAdv` is shaped as an error entry (it has
no command-status section), yet because its message text contains the
word `commandStatus`, the interpreter takes the command-status branch and
fails with a `KeyError`, not with the claimed
`CreateError("Message: " + errorMessage.message)`. -/
theorem parse_error_entry_cex :
    parse_ksql_res [errEntryAdv] = .error .keyError ∧
    (Except.error PyExc.keyError : Except PyExc Bool) ≠
      .error (.createError (.str ("Message: " ++ "unknown commandStatus"))) :=
  ⟨rfl, by intro h; injection h with h2; exact PyExc.noConfusion h2⟩

/-- C4 (amended): for a buffered response whose first entry is shaped as
an error entry AND whose string representation does not contain the
substring `commandStatus`, the interpreter fails with `CreateError` whose
message is `"Message: "` concatenated with the nested
`errorMessage.message` field. (The original claim fails for error entries
whose serialized text happens to contain `commandStatus`; see the
counterexample.) -/
theorem parse_error_entry_claim (r0 : PyVal) (rest : List PyVal)
    (v1 v2 : PyVal) (msg : String)
    (hno : pyContains "commandStatus" r0 = false)
    (h1 : dictGet r0 "error" = .ok v1)
    (h2 : dictGet v1 "errorMessage" = .ok v2)
    (h3 : dictGet v2 "message" = .ok (.str msg)) :
    parse_ksql_res (r0 :: rest) =
      .error (.createError (.str ("Message: " ++ msg))) := by
  simp only [parse_ksql_res, hno, Bool.false_eq_true, if_false, h1, h2, h3]

/-- Witness for C4 (amended) at a plain error entry. -/
theorem parse_error_entry_claim_w :
    parse_ksql_res [errEntryPlain] =
      .error (.createError (.str ("Message: " ++ "stream not found"))) :=
  parse_error_entry_claim errEntryPlain [] _ _ "stream not found" rfl rfl rfl rfl

/-- C10: the interpreter branches on whether the substring
`commandStatus` occurs in the string representation of the first entry,
not on the entry's structure: any first entry passing that textual test
while lacking a `currentStatus` key (so, no command-status section) makes
the interpreter take the command-status branch and fail with the
field-access `KeyError` instead of the error-entry `CreateError`. -/
theorem parse_branch_by_substring (r0 : PyVal) (rest : List PyVal)
    (h1 : pyContains "commandStatus" r0 = true)
    (h2 : dictGet r0 "currentStatus" = .error .keyError) :
    parse_ksql_res (r0 :: rest) = .error .keyError := by
  simp only [parse_ksql_res, h1, if_true, h2]

/-- Witness for C10 at the adversarial error entry. -/
theorem parse_branch_by_substring_w :
    parse_ksql_res [errEntryAdv] = .error .keyError :=
  parse_branch_by_substring errEntryAdv [] rfl rfl

/-- C5: an operation that raises a retryable error on exactly its first
`k` invocations (`k < max_retries`) and then succeeds makes the retry
wrapper return the success value after exactly `k + 1` invocations, with
no further attempts after the success. -/
theorem retry_success_after_k_claim {A : Type} (op : Nat → Except PyExc A)
    (exc : PyExc → Bool) (m k : Nat) (e : Nat → PyExc) (v : A)
    (hk : k < m)
    (hfail : ∀ i, i < k → op i = .error (e i) ∧ exc (e i) = true)
    (hsucc : op k = .ok v) :
    retryModel op exc m = (.ok (some v), k + 1) := by
  unfold retryModel
  have hfail' : ∀ i, i < k → op (0 + i) = .error (e (0 + i)) ∧
      exc (e (0 + i)) = true := by
    intro i hi; simpa using hfail i hi
  have hsucc' : op (0 + k) = .ok v := by simpa using hsucc
  have h := retryGo_success op exc e v k 0 m none hk hfail' hsucc'
  simpa using h

/-- Witness for C5: `opFlaky` times out twice then succeeds; under the
`_create_as` retry kinds with bound 5 it returns success after exactly 3
invocations. -/
theorem retry_success_after_k_claim_w :
    retryModel opFlaky createAsRetryExceptions 5 = (.ok (some true), 3) :=
  retry_success_after_k_claim opFlaky createAsRetryExceptions 5 2
    (fun _ => .timeout) true (by omega)
    (by intro i hi; interval_cases i <;> exact ⟨rfl, rfl⟩) rfl

/-- C6 counterexample: `opMixed` raises a retryable `Timeout` on its
first invocation and a non-retryable `RuntimeError` on its second; the
non-retryable error propagates after TWO invocations, not "exactly once"
as the claim states. -/
theorem retry_nonretryable_count_cex :
    retryModel opMixed createAsRetryExceptions 3 =
      (.error (.other "RuntimeError"), 2) := by
  simp [retryModel, retryGo, opMixed, createAsRetryExceptions]

/-- C6 (amended): if every invocation raises a retryable error, the
operation is invoked exactly `max_retries` times and the last caught
error is re-raised unchanged; if invocation `k` raises a non-retryable
error (after `k` retryable failures), that error propagates immediately
with no further invocations, after exactly `k + 1` invocations — in
particular, exactly once when the first invocation is the non-retryable
one. (The original claim's "invoked exactly once" fails when retryable
failures precede the non-retryable error; see the counterexample.) -/
theorem retry_error_propagation_claim {A : Type} (op : Nat → Except PyExc A)
    (exc : PyExc → Bool) (m k : Nat) (e : Nat → PyExc) (e2 : PyExc) :
    (0 < m → (∀ i, i < m → op i = .error (e i) ∧ exc (e i) = true) →
      retryModel op exc m = (.error (e (m - 1)), m)) ∧
    (k < m → (∀ i, i < k → op i = .error (e i) ∧ exc (e i) = true) →
      op k = .error e2 → exc e2 = false →
      retryModel op exc m = (.error e2, k + 1)) := by
  constructor
  · intro hm hfail
    obtain ⟨r, rfl⟩ : ∃ r, m = r + 1 := ⟨m - 1, by omega⟩
    unfold retryModel
    have hfail' : ∀ i, i ≤ r → op (0 + i) = .error (e (0 + i)) ∧
        exc (e (0 + i)) = true := by
      intro i hi; simpa using hfail i (by omega)
    have h := retryGo_exhaust op exc e r 0 none hfail'
    simpa using h
  · intro hk hfail herr he2
    unfold retryModel
    have hfail' : ∀ i, i < k → op (0 + i) = .error (e (0 + i)) ∧
        exc (e (0 + i)) = true := by
      intro i hi; simpa using hfail i hi
    have herr' : op (0 + k) = .error e2 := by simpa using herr
    have h := retryGo_fatal op exc e e2 he2 k 0 m none hk hfail' herr'
    simpa using h

/-- Witness for C6 (amended): an always-timing-out operation under bound
3 is invoked 3 times and the timeout is re-raised; an operation whose
first invocation raises a non-retryable error is invoked exactly once. -/
theorem retry_error_propagation_claim_w :
    retryModel opTimeoutAlways createAsRetryExceptions 3 =
      (.error .timeout, 3) ∧
    retryModel opFatal createAsRetryExceptions 3 =
      (.error (.other "RuntimeError"), 1) :=
  ⟨(retry_error_propagation_claim opTimeoutAlways createAsRetryExceptions 3 0
      (fun _ => .timeout) .timeout).1 (by omega) (fun _ _ => ⟨rfl, rfl⟩),
   (retry_error_propagation_claim opFatal createAsRetryExceptions 3 0
      (fun _ => .timeout) (.other "RuntimeError")).2 (by omega)
     (fun i hi => absurd hi (Nat.not_lt_zero i)) rfl rfl⟩

/-- C7 (code bug): the retry policy around `_create_as` has retryable
kinds exactly `Timeout` and `CreateError`, and plain `_create` is not
wrapped, so a transport timeout there propagates after a single
invocation while `_create_as` retries it — but the attempt bound and
delay used by the decorator are its own defaults `5` and `1`, NOT the
`max_retries`/`delay` stored at client construction (here `7` and `2`),
which `BaseAPI.__init__` stores and never uses. -/
theorem create_as_retry_config_claim :
    createAsRetryExceptions .timeout = true ∧
    (∀ m, createAsRetryExceptions (.createError m) = true) ∧
    (∀ s, createAsRetryExceptions (.other s) = false) ∧
    createAsRetryExceptions .keyError = false ∧
    createAsRetryExceptions .indexError = false ∧
    (∀ s, createAsRetryExceptions (.invalidQueryError s) = false) ∧
    (∀ s, createAsRetryExceptions (.valueError s) = false) ∧
    (BaseAPI.init "http://ksql-server:8088" (some 7) (some 2) none).max_retries = 7 ∧
    (BaseAPI.init "http://ksql-server:8088" (some 7) (some 2) none).delay = 2 ∧
    createAsRetryMaxRetries = 5 ∧
    createAsRetryDelay = 1 ∧
    create_model (fun _ => .error .timeout) = (.error .timeout, 1) ∧
    create_as_model (fun _ => .error .timeout) = (.error .timeout, 5) := by
  refine ⟨rfl, fun m => rfl, fun s => rfl, rfl, rfl, fun s => rfl, fun s => rfl,
    rfl, rfl, rfl, rfl, rfl, ?_⟩
  simp [create_as_model, retryModel, retryGo, createAsRetryExceptions, Except.bind]

/-- C8: a buffered `ksql` call with HTTP status 200 returns the
JSON-decoded body; any other status fails with a transport error
(`ValueError`) whose message carries both the status code and the raw
body text (each occurs verbatim inside the message). -/
theorem ksql_status_claim (r : HttpResponse) :
    (r.status_code = 200 → ksql_model r = .ok r.body_json) ∧
    (r.status_code ≠ 200 →
      ksql_model r = .error (.valueError
        ("Status Code: " ++ toString r.status_code ++ ".\nMessage: " ++ r.content)) ∧
      (toString r.status_code).data <:+:
        ("Status Code: " ++ toString r.status_code ++ ".\nMessage: " ++ r.content).data ∧
      r.content.data <:+:
        ("Status Code: " ++ toString r.status_code ++ ".\nMessage: " ++ r.content).data) := by
  constructor
  · intro h; simp [ksql_model, h]
  · intro h
    refine ⟨by simp [ksql_model, h], ?_, ?_⟩
    · rw [String.data_append, String.data_append, String.data_append]
      exact infix_ext_right _ (infix_ext_right _ (infix_of_pre _ _))
    · rw [String.data_append]
      exact infix_of_pre _ _

/-- Witness for C8 at a 200 response and at a 404 response. -/
theorem ksql_status_claim_w :
    ksql_model ⟨200, "", [csEntryOk]⟩ = .ok [csEntryOk] ∧
    ksql_model ⟨404, "not found", []⟩ = .error (.valueError
      ("Status Code: " ++ toString (404 : Nat) ++ ".\nMessage: " ++ "not found")) :=
  ⟨(ksql_status_claim ⟨200, "", [csEntryOk]⟩).1 rfl,
   ((ksql_status_claim ⟨404, "not found", []⟩).2 (by decide)).1⟩

/-- C9: the streaming decoder skips every chunk equal to a bare newline
and turns every other chunk into the next row by decoding and JSON
parsing it, for every `loads`/`decode` pair and every chunk sequence; in
particular the chunk sequence `["\n", "\x7b\"a\":1\x7d", "\n",
"\x7b\"a\":2\x7d"]` yields exactly the rows parsed from the two
non-newline chunks, in order. -/
theorem query_stream_claim (loads : String → PyVal) (decode : String → String) :
    (∀ chunks : List String,
      query_model loads decode chunks =
        (chunks.filter (fun c => c != "\n")).map (fun c => loads (decode c))) ∧
    query_model loads decode ["\n", "\x7b\"a\":1\x7d", "\n", "\x7b\"a\":2\x7d"] =
      [loads (decode "\x7b\"a\":1\x7d"), loads (decode "\x7b\"a\":2\x7d")] := by
  constructor
  · intro chunks
    induction chunks with
    | nil => rfl
    | cons c rest ih =>
      by_cases h : c = "\n"
      · simp [query_model, h, ih]
      · simp [query_model, h, ih]
  · rfl
